import Mathlib

set_option maxRecDepth 4000

/-
Shallow embedding of stage1/prepare-app/prepare-app.c (rkt's stage2
root-filesystem preparation engine).

The program is straight-line, fail-fast C acting on the filesystem.  We
model it as a pure function from a read-only `World` (the host and
container state consulted by the program) to a `Run`: the ordered list of
mutating/inspecting syscall events issued, together with an `ok` flag
(`false` when the program aborts via its fatal-exit macros).  Syscalls
whose failure the program treats as fatal and which the claims do not
exercise (statfs, fopen/fclose of the uid map, opendir/readdir/closedir,
write/close of the hosts file, open of the root directory fd) are assumed
to succeed; fallible syscalls whose outcome drives control flow
(mount, unlinkat, mkdirat, symlink, access/faccessat, the uid-map parse)
are driven by the `World`.
-/

namespace PrepareApp

/-- Linux MS_BIND mount flag. -/
def MS_BIND : Nat := 4096

/-- Linux MS_REC mount flag. -/
def MS_REC : Nat := 16384

/-- Filesystem magic of the unified (v2) cgroup hierarchy, from the C
`#define CGROUP2_SUPER_MAGIC 0x63677270`. -/
def CGROUP2_SUPER_MAGIC : Nat := 0x63677270

/-- `#define UNMAPPED ((uid_t) -1)` with 4-byte `uid_t`. -/
def UNMAPPED : Nat := 4294967295

/-- `#define MACHINE_ID_LEN lenof("0123456789abcdef0123456789ab")` (= 28). -/
def MACHINE_ID_LEN : Nat := "0123456789abcdef0123456789ab".length

/-- `#define MACHINE_NAME_LEN lenof("rkt-01234567-89ab-cdef-0123-456789ab")` (= 36). -/
def MACHINE_NAME_LEN : Nat := "rkt-01234567-89ab-cdef-0123-456789ab".length

/-- The C `mount_point` struct. -/
structure mount_point where
  source : String
  target : String
  type : String
  options : Option String
  flags : Nat
  deriving DecidableEq

/-- The C `dir_op_t` struct. -/
structure dir_op_t where
  name : String
  mode : Nat
  deriving DecidableEq

/-- One `struct dirent` as consulted by `mount_sys`: its name and whether
`d_type == DT_DIR`. -/
structure Dirent where
  d_name : String
  d_isDir : Bool
  deriving DecidableEq

/-- A syscall event issued by the program, in program order. -/
inductive Event where
  | mount (source target type : String) (flags : Nat)
  | unlinkat (path : String)
  | mkdirat (path : String) (mode : Nat)
  | openCreate (path : String)
  | writeFile (path contents : String)
  | symlink (target linkpath : String)
  | openUidMap
  deriving DecidableEq

/-- Outcome of `unlinkat` as the program distinguishes it
(`errno != ENOENT && errno != EISDIR` is fatal). -/
inductive UnlinkRes where
  | ok | enoent | eisdir | other
  deriving DecidableEq

/-- Outcome of `mkdirat` as the program distinguishes it
(`errno != EEXIST` is fatal). -/
inductive MkdirRes where
  | ok | eexist | other
  deriving DecidableEq

/-- Outcome of `symlink` as the program distinguishes it
(`errno != EEXIST` is fatal). -/
inductive SymlinkRes where
  | ok | eexist | other
  deriving DecidableEq

/-- The read-only host/container state the program consults. -/
structure World where
  /-- Does `mount(source, target, ...)` succeed? -/
  mountOk : String → String → Bool
  /-- Outcome of `unlinkat(rootfd, path, 0)`. -/
  unlinkResult : String → UnlinkRes
  /-- Outcome of `mkdirat(rootfd, path, mode)`. -/
  mkdirResult : String → MkdirRes
  /-- Outcome of `symlink(target, linkpath)`. -/
  symlinkResult : String → SymlinkRes
  /-- `faccessat(rootfd, "etc/hosts", F_OK, AT_EACCESS) == 0`. -/
  etcHostsExists : Bool
  /-- Contents of `/etc/machine-id` (`none` when it cannot be opened). -/
  machineIdFile : Option String
  /-- `access(path, F_OK) == 0` for absolute host/container paths. -/
  access : String → Bool
  /-- `fs.f_type` reported by `statfs("/sys/fs/cgroup", &fs)`. -/
  cgroupFsType : Nat
  /-- The integers parseable from `/proc/1/uid_map` in order. -/
  uidMap : List Nat
  /-- The entries returned by enumerating the host `/sys/fs/cgroup`. -/
  cgroupEntries : List Dirent

/-- A run: the events issued so far and whether the program is still alive
(`ok = false` once a fatal `exit_if`/`pexit_if` fired). -/
structure Run where
  trace : List Event
  ok : Bool
  deriving DecidableEq

/-- The empty successful run. -/
def Run.pure : Run := ⟨[], true⟩

/-- A fatal abort that issued no event. -/
def Run.fail : Run := ⟨[], false⟩

/-- Sequencing with fail-fast: once a step aborts, nothing further runs. -/
def Run.seq (a b : Run) : Run :=
  if a.ok = true then ⟨a.trace ++ b.trace, b.ok⟩ else a

/-- Run a step for each list element in order, fail-fast. -/
def runList (f : α → Run) : List α → Run
  | [] => Run.pure
  | x :: xs => (f x).seq (runList f xs)

/-- `get_machine_name` (prepare-app.c:78): read `MACHINE_ID_LEN` bytes of
`/etc/machine-id` and format `"rkt-%.8s-%.4s-%.4s-%.4s-%.8s"` from offsets
0, 8, 12, 16, 20 of that buffer, failing when the formatted name would
overflow the `MACHINE_NAME_LEN + 1` output buffer. -/
def get_machine_name (contents : String) : Option String :=
  let buf := contents.take MACHINE_ID_LEN
  let name := "rkt-" ++ buf.take 8 ++ "-" ++ (buf.drop 8).take 4 ++ "-" ++
    (buf.drop 12).take 4 ++ "-" ++ (buf.drop 16).take 4 ++ "-" ++ (buf.drop 20).take 8
  if MACHINE_NAME_LEN + 1 ≤ name.length then none else some name

/-- `ensure_etc_hosts_exists` (prepare-app.c:101): no-op when
`etc/hosts` already exists under the root; otherwise synthesize the
hostname and write the single hosts line
`"127.0.0.1\t<name>\tlocalhost\tlocalhost.localdomain\n"`, failing when the
machine id cannot be read or the line reaches 128 bytes. -/
def ensure_etc_hosts_exists (w : World) : Run :=
  if w.etcHostsExists = true then Run.pure
  else
    match w.machineIdFile with
    | none => Run.fail
    | some contents =>
      match get_machine_name contents with
      | none => Run.fail
      | some name =>
        let hosts := "127.0.0.1" ++ "\t" ++ name ++ "\t" ++ "localhost" ++ "\t" ++
          "localhost.localdomain" ++ "\n"
        if 128 ≤ hosts.length then Run.fail
        else ⟨[Event.writeFile "etc/hosts" hosts], true⟩

/-- `mount_at` (prepare-app.c:131): compose `"%s/%s"` of the root and the
mount target into a 4096-byte buffer, aborting (before any mount syscall)
when the composed path would not fit, then issue the mount. -/
def mount_at (w : World) (root : String) (mnt : mount_point) : Run :=
  if 4096 ≤ (root ++ "/" ++ mnt.target).length then Run.fail
  else
    ⟨[Event.mount mnt.source (root ++ "/" ++ mnt.target) mnt.type mnt.flags],
     w.mountOk mnt.source (root ++ "/" ++ mnt.target)⟩

/-- The recursive `/sys` bind mount used by `mount_sys`. -/
def mnt_rec : mount_point := ⟨"/sys", "sys", "bind", none, MS_BIND ||| MS_REC⟩

/-- The two-step non-recursive table used in the legacy-cgroup branch of
`mount_sys`. -/
def sys_bind_table : List mount_point :=
  [⟨"/sys", "sys", "bind", none, MS_BIND⟩,
   ⟨"/sys/fs/cgroup", "sys/fs/cgroup", "bind", none, MS_BIND⟩]

/-- The return count of `fscanf(f, "%u %u %u", ...)` on a file holding the
given integers: the number of fields assigned, at most three. -/
def fscanf_count (l : List Nat) : Nat := min l.length 3

/-- One iteration of the controller loop in `mount_sys` (prepare-app.c:213):
compose `"sys/fs/cgroup/%s"` into the 4096-byte buffer (fatal on overflow)
and bind-mount it, the same relative string serving as source and target. -/
def cgroup_controller_mount (w : World) (root : String) (name : String) : Run :=
  if 4096 ≤ ("sys/fs/cgroup/" ++ name).length then Run.fail
  else mount_at w root ⟨"sys/fs/cgroup/" ++ name, "sys/fs/cgroup/" ++ name, "bind", none, MS_BIND⟩

/-- The `readdir` loop of `mount_sys` (prepare-app.c:205): skip non-directory
entries and `"."`/`".."`, bind-mount each remaining controller. -/
def cgroup_loop (w : World) (root : String) : List Dirent → Run
  | [] => Run.pure
  | d :: ds =>
    if d.d_isDir = false then cgroup_loop w root ds
    else if d.d_name = "." then cgroup_loop w root ds
    else if d.d_name = ".." then cgroup_loop w root ds
    else (cgroup_controller_mount w root d.d_name).seq (cgroup_loop w root ds)

/-- The tail of `mount_sys` reached in the legacy, non-nested case
(prepare-app.c:197): the two non-recursive bind mounts, the `"%s/%s"`
length check for the directory to enumerate, then the controller loop. -/
def mount_sys_legacy (w : World) (root : String) : Run :=
  (runList (mount_at w root) sys_bind_table).seq
    (if 4096 ≤ (root ++ "/" ++ "sys/fs/cgroup").length then Run.fail
     else cgroup_loop w root w.cgroupEntries)

/-- `mount_sys` (prepare-app.c:141): unified hierarchy gets one recursive
bind mount; otherwise, when `/proc/1/uid_map` exists it is opened and its
record parsed (fewer than three fields is fatal), a non-identity mapping
gets one recursive bind mount, and the remaining case falls through to the
per-controller strategy.  `statfs` and the uid-map fopen/fclose are
assumed to succeed. -/
def mount_sys (w : World) (root : String) : Run :=
  if w.cgroupFsType = CGROUP2_SUPER_MAGIC then mount_at w root mnt_rec
  else if w.access "/proc/1/uid_map" = true then
    Run.seq ⟨[Event.openUidMap], true⟩
      (if fscanf_count w.uidMap ≠ 3 then Run.fail
       else
         if w.uidMap.getD 0 0 ≠ 0 ∨ w.uidMap.getD 1 0 ≠ 0 ∨ w.uidMap.getD 2 0 ≠ UNMAPPED then
           mount_at w root mnt_rec
         else mount_sys_legacy w root)
  else mount_sys_legacy w root

/-- `unlink_paths` (prepare-app.c:225). -/
def unlink_paths : List String := ["dev/shm", "dev/ptmx"]

/-- `dirs` (prepare-app.c:230). -/
def dirs : List dir_op_t :=
  [⟨"dev", 0o755⟩, ⟨"dev/net", 0o755⟩, ⟨"dev/shm", 0o755⟩, ⟨"etc", 0o755⟩,
   ⟨"proc", 0o755⟩, ⟨"sys", 0o755⟩, ⟨"tmp", 0o1777⟩, ⟨"dev/pts", 0o755⟩,
   ⟨"run", 0o755⟩, ⟨"run/systemd", 0o755⟩, ⟨"run/systemd/journal", 0o755⟩]

/-- `devnodes` (prepare-app.c:243). -/
def devnodes : List String :=
  ["/dev/null", "/dev/zero", "/dev/full", "/dev/random", "/dev/urandom",
   "/dev/tty", "/dev/net/tun", "/dev/console"]

/-- `dirs_mount_table` (prepare-app.c:254). -/
def dirs_mount_table : List mount_point :=
  [⟨"/proc", "/proc", "bind", none, MS_BIND ||| MS_REC⟩,
   ⟨"/dev/shm", "/dev/shm", "bind", none, MS_BIND⟩,
   ⟨"/dev/pts", "/dev/pts", "bind", none, MS_BIND⟩,
   ⟨"/run/systemd/journal", "/run/systemd/journal", "bind", none, MS_BIND⟩]

/-- `files_mount_table` (prepare-app.c:261). -/
def files_mount_table : List mount_point :=
  [⟨"/etc/rkt-resolv.conf", "/etc/resolv.conf", "bind", none, MS_BIND⟩]

/-- One iteration of the unlink loop (prepare-app.c:292): fatal unless the
error is `ENOENT` or `EISDIR`. -/
def unlink_step (w : World) (p : String) : Run :=
  match w.unlinkResult p with
  | UnlinkRes.other => ⟨[Event.unlinkat p], false⟩
  | _ => ⟨[Event.unlinkat p], true⟩

/-- One iteration of the directory-creation loop (prepare-app.c:300): fatal
unless the error is `EEXIST`. -/
def mkdir_step (w : World) (d : dir_op_t) : Run :=
  match w.mkdirResult d.name with
  | MkdirRes.other => ⟨[Event.mkdirat d.name d.mode], false⟩
  | _ => ⟨[Event.mkdirat d.name d.mode], true⟩

/-- One iteration of the device-node loop (prepare-app.c:328): skip when the
host node is absent; otherwise compose `"%s%s"` (fatal on overflow), open
the placeholder with `O_CREAT` (its failure is tolerated), and bind-mount
the host node onto it (failure fatal). -/
def devnode_step (w : World) (root : String) (src : String) : Run :=
  if w.access src = false then Run.pure
  else if 4096 ≤ (root ++ src).length then Run.fail
  else
    ⟨[Event.openCreate (root ++ src), Event.mount src (root ++ src) "bind" MS_BIND],
     w.mountOk src (root ++ src)⟩

/-- One iteration of the file-mount loop (prepare-app.c:362): length check,
skip when the host source is absent, `creat` the target when absent
(assumed to succeed), then mount. -/
def file_mount_step (w : World) (root : String) (mnt : mount_point) : Run :=
  if 4096 ≤ (root ++ "/" ++ mnt.target).length then Run.fail
  else if w.access mnt.source = false then Run.pure
  else
    ⟨(if w.access (root ++ "/" ++ mnt.target) = false
        then [Event.openCreate (root ++ "/" ++ mnt.target)] else []) ++
       [Event.mount mnt.source (root ++ "/" ++ mnt.target) mnt.type mnt.flags],
     w.mountOk mnt.source (root ++ "/" ++ mnt.target)⟩

/-- One of the trailing symlink creations (prepare-app.c:381): length check,
then `symlink`, fatal unless the error is `EEXIST`. -/
def symlink_step (w : World) (root : String) (target : String) (linkRel : String) : Run :=
  if 4096 ≤ (root ++ linkRel).length then Run.fail
  else match w.symlinkResult (root ++ linkRel) with
    | SymlinkRes.other => ⟨[Event.symlink target (root ++ linkRel)], false⟩
    | _ => ⟨[Event.symlink target (root ++ linkRel)], true⟩

/-- The initial `mount(root, root, "bind", MS_BIND | MS_REC, NULL)`
(prepare-app.c:281), issued before everything else; failure is fatal. -/
def root_mount_step (w : World) (root : String) : Run :=
  ⟨[Event.mount root root "bind" (MS_BIND ||| MS_REC)], w.mountOk root root⟩

/-- `main` up to and including `ensure_etc_hosts_exists`
(prepare-app.c:281-308): root self-bind, unlink loop, mkdir loop, hosts
synthesis. -/
def main_pre (w : World) (root : String) : Run :=
  (root_mount_step w root).seq
  ((runList (unlink_step w) unlink_paths).seq
  ((runList (mkdir_step w) dirs).seq
  (ensure_etc_hosts_exists w)))

/-- `main` after `close(rootfd)` (prepare-app.c:328-391): device nodes,
directory bind mounts, `mount_sys`, file mounts, trailing symlinks. -/
def main_post (w : World) (root : String) : Run :=
  (runList (devnode_step w root) devnodes).seq
  ((runList (mount_at w root) dirs_mount_table).seq
  ((mount_sys w root).seq
  ((runList (file_mount_step w root) files_mount_table).seq
  ((symlink_step w root "/dev/pts/ptmx" "/dev/ptmx").seq
  (symlink_step w root "/run/systemd/journal/dev-log" "/dev/log")))))

/-- `main` (prepare-app.c:223): the whole preparation for a given root. -/
def main (w : World) (root : String) : Run :=
  (main_pre w root).seq (main_post w root)

/-- Is the event a mount syscall? -/
def isMount : Event → Bool
  | Event.mount _ _ _ _ => true
  | _ => false

/-- The mount events of a trace, in order. -/
def mountEvents (tr : List Event) : List Event := tr.filter isMount

/-- The target of a mount event (`""` for other events). -/
def Event.target : Event → String
  | Event.mount _ t _ _ => t
  | _ => ""

/-- Is the event the hosts-file write of the Hosts Synthesizer? -/
def isHostsWrite : Event → Bool
  | Event.writeFile _ _ => true
  | _ => false

/-- The host-side sources whose mounts belong to the Device & File
Bind-Mounter component (device nodes, directory table, file table). -/
def dev_sources : List String :=
  devnodes ++ ["/proc", "/dev/shm", "/dev/pts", "/run/systemd/journal", "/etc/rkt-resolv.conf"]

/-- Is the event a mutating operation of the Device & File Bind-Mounter
(placeholder creation, its mounts, or the trailing symlinks)? -/
def isDevFileEvent : Event → Bool
  | Event.openCreate _ => true
  | Event.symlink _ _ => true
  | Event.mount s _ _ _ => dev_sources.contains s
  | _ => false

/-- Does every Device & File Bind-Mounter event precede every Hosts
Synthesizer event in the trace? -/
def devBeforeHosts (tr : List Event) : Bool :=
  (tr.dropWhile (fun e => !(isHostsWrite e))).all (fun e => !(isDevFileEvent e))

/-- Does every Hosts Synthesizer event precede every Device & File
Bind-Mounter event in the trace? -/
def hostsBeforeDev (tr : List Event) : Bool :=
  (tr.dropWhile (fun e => !(isDevFileEvent e))).all (fun e => !(isHostsWrite e))

/-- The names of the cgroup-controller directory entries that the
controller loop bind-mounts (directories other than `"."` and `".."`). -/
def controller_names (es : List Dirent) : List String :=
  (es.filter (fun e => e.d_isDir && e.d_name ≠ "." && e.d_name ≠ "..")).map Dirent.d_name

/-! Helper lemmas about string lengths and run sequencing. -/

lemma len_app (a b : String) : (a ++ b).length = a.length + b.length :=
  String.length_append a b

lemma seq_ok (a b : Run) : (a.seq b).ok = (a.ok && b.ok) := by
  unfold Run.seq
  split <;> simp_all

lemma seq_of_not_ok {a : Run} (b : Run) (h : a.ok = false) : a.seq b = a := by
  unfold Run.seq
  simp [h]

lemma seq_trace_of_ok {a : Run} (b : Run) (h : a.ok = true) :
    (a.seq b).trace = a.trace ++ b.trace := by
  unfold Run.seq
  simp [h]

lemma mem_seq_trace {e : Event} {a b : Run} (h : e ∈ (a.seq b).trace) :
    e ∈ a.trace ∨ e ∈ b.trace := by
  unfold Run.seq at h
  by_cases ha : a.ok = true
  · simp [ha] at h
    rcases h with h | h
    · exact Or.inl h
    · exact Or.inr h
  · simp [ha] at h
    exact Or.inl h

lemma runList_ok {f : α → Run} {l : List α} (h : ∀ x ∈ l, (f x).ok = true) :
    (runList f l).ok = true := by
  induction l with
  | nil => rfl
  | cons x xs ih =>
    have hx := h x (by simp)
    have hxs := ih (fun y hy => h y (by simp [hy]))
    simp [runList, seq_ok, hx, hxs]

lemma mem_runList_trace {f : α → Run} {l : List α} {e : Event}
    (h : e ∈ (runList f l).trace) : ∃ x ∈ l, e ∈ (f x).trace := by
  induction l with
  | nil => simp [runList, Run.pure] at h
  | cons x xs ih =>
    rcases mem_seq_trace h with h1 | h1
    · exact ⟨x, by simp, h1⟩
    · rcases ih h1 with ⟨y, hy, he⟩
      exact ⟨y, by simp [hy], he⟩

lemma mount_at_eq {w : World} {root : String} {mnt : mount_point}
    (hl : root.length + 1 + mnt.target.length < 4096) :
    mount_at w root mnt =
      ⟨[Event.mount mnt.source (root ++ "/" ++ mnt.target) mnt.type mnt.flags],
       w.mountOk mnt.source (root ++ "/" ++ mnt.target)⟩ := by
  have hlen : (root ++ "/" ++ mnt.target).length = root.length + 1 + mnt.target.length := by
    simp [len_app]
    rfl
  unfold mount_at
  rw [if_neg (by omega)]

lemma unlink_step_ok {w : World} {p : String} (h : w.unlinkResult p ≠ UnlinkRes.other) :
    (unlink_step w p).ok = true := by
  unfold unlink_step
  cases hr : w.unlinkResult p <;> simp_all

lemma mkdir_step_ok {w : World} {d : dir_op_t} (h : w.mkdirResult d.name ≠ MkdirRes.other) :
    (mkdir_step w d).ok = true := by
  unfold mkdir_step
  cases hr : w.mkdirResult d.name <;> simp_all

lemma symlink_step_ok {w : World} {root target linkRel : String}
    (h : w.symlinkResult (root ++ linkRel) ≠ SymlinkRes.other)
    (hl : (root ++ linkRel).length < 4096) :
    (symlink_step w root target linkRel).ok = true := by
  unfold symlink_step
  rw [if_neg (by omega)]
  cases hr : w.symlinkResult (root ++ linkRel) <;> simp_all

lemma devnode_step_ok {w : World} {root src : String}
    (hm : ∀ s t, w.mountOk s t = true) (hl : (root ++ src).length < 4096) :
    (devnode_step w root src).ok = true := by
  unfold devnode_step
  rw [len_app] at hl
  by_cases ha : w.access src = false
  · simp [ha, Run.pure]
  · simp only [ha, if_false]
    simp only [len_app]
    have hc : ¬ (4096 ≤ root.length + src.length) := by omega
    rw [if_neg hc]
    simp [hm]

lemma file_mount_step_ok {w : World} {root : String} {mnt : mount_point}
    (hm : ∀ s t, w.mountOk s t = true)
    (hl : (root ++ "/" ++ mnt.target).length < 4096) :
    (file_mount_step w root mnt).ok = true := by
  unfold file_mount_step
  rw [if_neg (by omega)]
  by_cases ha : w.access mnt.source = false
  · simp [ha, Run.pure]
  · simp [ha, hm]

lemma all_trace_seq {P : Event → Prop} {a b : Run}
    (ha : ∀ e ∈ a.trace, P e) (hb : ∀ e ∈ b.trace, P e) :
    ∀ e ∈ (a.seq b).trace, P e :=
  fun e he => (mem_seq_trace he).elim (ha e) (hb e)

lemma all_trace_runList {P : Event → Prop} {f : α → Run} {l : List α}
    (h : ∀ x ∈ l, ∀ e ∈ (f x).trace, P e) :
    ∀ e ∈ (runList f l).trace, P e := by
  intro e he
  rcases mem_runList_trace he with ⟨x, hx, he2⟩
  exact h x hx e he2

lemma ensure_of_exists {w : World} (h : w.etcHostsExists = true) :
    ensure_etc_hosts_exists w = Run.pure := by
  unfold ensure_etc_hosts_exists
  simp [h]

lemma ensure_shape (w : World) :
    (ensure_etc_hosts_exists w).trace = [] ∨
      ∃ s, (ensure_etc_hosts_exists w).trace = [Event.writeFile "etc/hosts" s] := by
  by_cases h : w.etcHostsExists = true
  · left
    rw [ensure_of_exists h]
    rfl
  · unfold ensure_etc_hosts_exists
    rw [if_neg h]
    cases hm : w.machineIdFile with
    | none => left; rfl
    | some c =>
      cases hg : get_machine_name c with
      | none =>
        simp only [hg]
        left
        rfl
      | some n =>
        simp only [hg]
        split
        · left
          rfl
        · right
          exact ⟨_, rfl⟩

lemma mount_at_no_write {w : World} {root : String} {m : mount_point} :
    ∀ e ∈ (mount_at w root m).trace, isHostsWrite e = false := by
  unfold mount_at
  split
  · simp [Run.fail]
  · intro e he
    simp only [List.mem_singleton] at he
    subst he
    rfl

lemma cgroup_controller_no_write {w : World} {root n : String} :
    ∀ e ∈ (cgroup_controller_mount w root n).trace, isHostsWrite e = false := by
  unfold cgroup_controller_mount
  split
  · simp [Run.fail]
  · exact mount_at_no_write

lemma cgroup_loop_no_write {w : World} {root : String} (es : List Dirent) :
    ∀ e ∈ (cgroup_loop w root es).trace, isHostsWrite e = false := by
  induction es with
  | nil => simp [cgroup_loop, Run.pure]
  | cons d ds ih =>
    simp only [cgroup_loop]
    split
    · exact ih
    · split
      · exact ih
      · split
        · exact ih
        · exact all_trace_seq cgroup_controller_no_write ih

lemma mount_sys_legacy_no_write {w : World} {root : String} :
    ∀ e ∈ (mount_sys_legacy w root).trace, isHostsWrite e = false := by
  unfold mount_sys_legacy
  refine all_trace_seq (all_trace_runList fun m _ => mount_at_no_write) ?_
  split
  · simp [Run.fail]
  · exact cgroup_loop_no_write _

lemma mount_sys_no_write {w : World} {root : String} :
    ∀ e ∈ (mount_sys w root).trace, isHostsWrite e = false := by
  unfold mount_sys
  split
  · exact mount_at_no_write
  · split
    · refine all_trace_seq ?_ ?_
      · intro e he
        simp only [List.mem_singleton] at he
        subst he
        rfl
      · split
        · simp [Run.fail]
        · split
          · exact mount_at_no_write
          · exact mount_sys_legacy_no_write
    · exact mount_sys_legacy_no_write

lemma devnode_no_write {w : World} {root src : String} :
    ∀ e ∈ (devnode_step w root src).trace, isHostsWrite e = false := by
  unfold devnode_step
  split
  · simp [Run.pure]
  · split
    · simp [Run.fail]
    · intro e he
      simp only [List.mem_cons, List.mem_singleton] at he
      rcases he with he | he | he
      · subst he; rfl
      · subst he; rfl
      · simp at he

lemma file_mount_no_write {w : World} {root : String} {m : mount_point} :
    ∀ e ∈ (file_mount_step w root m).trace, isHostsWrite e = false := by
  unfold file_mount_step
  split
  · simp [Run.fail]
  · split
    · simp [Run.pure]
    · intro e he
      simp only [List.mem_append, List.mem_singleton] at he
      rcases he with he | he
      · split at he
        · simp only [List.mem_singleton] at he
          subst he; rfl
        · simp at he
      · subst he; rfl

lemma symlink_no_write {w : World} {root target linkRel : String} :
    ∀ e ∈ (symlink_step w root target linkRel).trace, isHostsWrite e = false := by
  unfold symlink_step
  split
  · simp [Run.fail]
  · split <;>
    · intro e he
      simp only [List.mem_singleton] at he
      subst he
      rfl

lemma main_post_no_write {w : World} {root : String} :
    ∀ e ∈ (main_post w root).trace, isHostsWrite e = false := by
  unfold main_post
  refine all_trace_seq (all_trace_runList fun s _ => devnode_no_write) ?_
  refine all_trace_seq (all_trace_runList fun m _ => mount_at_no_write) ?_
  refine all_trace_seq mount_sys_no_write ?_
  refine all_trace_seq (all_trace_runList fun m _ => file_mount_no_write) ?_
  exact all_trace_seq symlink_no_write symlink_no_write

lemma unlink_trace_shape {w : World} {p : String} :
    ∀ e ∈ (unlink_step w p).trace, e = Event.unlinkat p := by
  unfold unlink_step
  cases w.unlinkResult p <;>
    · intro e he
      simp only [List.mem_singleton] at he
      exact he

lemma mkdir_trace_shape {w : World} {d : dir_op_t} :
    ∀ e ∈ (mkdir_step w d).trace, e = Event.mkdirat d.name d.mode := by
  unfold mkdir_step
  cases w.mkdirResult d.name <;>
    · intro e he
      simp only [List.mem_singleton] at he
      exact he

lemma main_pre_no_dev {w : World} {root : String}
    (hroot : dev_sources.contains root = false) :
    ∀ e ∈ (main_pre w root).trace, isDevFileEvent e = false := by
  unfold main_pre
  refine all_trace_seq ?_ ?_
  · intro e he
    simp only [root_mount_step, List.mem_singleton] at he
    subst he
    exact hroot
  refine all_trace_seq (all_trace_runList fun p _ => ?_) ?_
  · intro e he
    rw [unlink_trace_shape e he]
    rfl
  refine all_trace_seq (all_trace_runList fun d _ => ?_) ?_
  · intro e he
    rw [mkdir_trace_shape e he]
    rfl
  · intro e he
    rcases ensure_shape w with hs | ⟨s, hs⟩
    · simp [hs] at he
    · rw [hs] at he
      simp only [List.mem_singleton] at he
      subst he
      rfl

lemma main_pre_no_write {w : World} {root : String} (h : w.etcHostsExists = true) :
    ∀ e ∈ (main_pre w root).trace, isHostsWrite e = false := by
  unfold main_pre
  refine all_trace_seq ?_ ?_
  · intro e he
    simp only [root_mount_step, List.mem_singleton] at he
    subst he
    rfl
  refine all_trace_seq (all_trace_runList fun p _ => ?_) ?_
  · intro e he
    rw [unlink_trace_shape e he]
    rfl
  refine all_trace_seq (all_trace_runList fun d _ => ?_) ?_
  · intro e he
    rw [mkdir_trace_shape e he]
    rfl
  · rw [ensure_of_exists h]
    simp [Run.pure]

lemma cgroup_loop_eq {w : World} {root : String} (hm : ∀ s t, w.mountOk s t = true)
    (es : List Dirent) (h : ∀ e ∈ es, root.length + 15 + e.d_name.length < 4096) :
    cgroup_loop w root es =
      ⟨(controller_names es).map (fun n =>
          Event.mount ("sys/fs/cgroup/" ++ n) (root ++ "/" ++ ("sys/fs/cgroup/" ++ n)) "bind" MS_BIND),
       true⟩ := by
  induction es with
  | nil => rfl
  | cons d ds ih =>
    have hds := ih (fun e he => h e (List.mem_cons_of_mem _ he))
    have hd := h d (List.mem_cons_self _ _)
    simp only [cgroup_loop]
    by_cases h1 : d.d_isDir = false
    · rw [if_pos h1, hds]
      simp [controller_names, h1]
    · rw [if_neg h1]
      have h1' : d.d_isDir = true := by
        cases hb : d.d_isDir
        · exact absurd hb h1
        · rfl
      by_cases h2 : d.d_name = "."
      · rw [if_pos h2, hds]
        simp [controller_names, h2]
      · rw [if_neg h2]
        by_cases h3 : d.d_name = ".."
        · rw [if_pos h3, hds]
          simp [controller_names, h3]
        · rw [if_neg h3]
          have h14 : ("sys/fs/cgroup/" : String).length = 14 := rfl
          have hc : ¬ (4096 ≤ ("sys/fs/cgroup/" ++ d.d_name).length) := by
            rw [len_app, h14]
            omega
          have hcm : cgroup_controller_mount w root d.d_name =
              ⟨[Event.mount ("sys/fs/cgroup/" ++ d.d_name)
                  (root ++ "/" ++ ("sys/fs/cgroup/" ++ d.d_name)) "bind" MS_BIND], true⟩ := by
            unfold cgroup_controller_mount
            rw [if_neg hc,
              mount_at_eq (by show root.length + 1 + ("sys/fs/cgroup/" ++ d.d_name).length < 4096
                              rw [len_app, h14]
                              omega),
              hm]
          rw [hcm, hds]
          unfold Run.seq
          simp [controller_names, h1', h2, h3]

lemma mount_sys_legacy_eq {w : World} {root : String} (hm : ∀ s t, w.mountOk s t = true)
    (hr : root.length + 14 < 4096)
    (he : ∀ e ∈ w.cgroupEntries, root.length + 15 + e.d_name.length < 4096) :
    mount_sys_legacy w root =
      ⟨Event.mount "/sys" (root ++ "/" ++ "sys") "bind" MS_BIND ::
         Event.mount "/sys/fs/cgroup" (root ++ "/" ++ "sys/fs/cgroup") "bind" MS_BIND ::
         (controller_names w.cgroupEntries).map (fun n =>
           Event.mount ("sys/fs/cgroup/" ++ n) (root ++ "/" ++ ("sys/fs/cgroup/" ++ n)) "bind" MS_BIND),
       true⟩ := by
  have h3 : ("sys" : String).length = 3 := rfl
  have h13 : ("sys/fs/cgroup" : String).length = 13 := rfl
  have h1s : ("/" : String).length = 1 := rfl
  have e1 := @mount_at_eq w root ⟨"/sys", "sys", "bind", none, MS_BIND⟩
    (by show root.length + 1 + ("sys" : String).length < 4096
        omega)
  have e2 := @mount_at_eq w root ⟨"/sys/fs/cgroup", "sys/fs/cgroup", "bind", none, MS_BIND⟩
    (by show root.length + 1 + ("sys/fs/cgroup" : String).length < 4096
        omega)
  have hcg : ¬ (4096 ≤ (root ++ "/" ++ "sys/fs/cgroup").length) := by
    rw [len_app, len_app, h13, h1s]
    omega
  unfold mount_sys_legacy sys_bind_table
  simp only [runList]
  rw [e1, e2, hm, hm, if_neg hcg, cgroup_loop_eq hm _ he]
  unfold Run.seq Run.pure
  simp

lemma mount_at_rec_ok {w : World} {root : String} (hm : ∀ s t, w.mountOk s t = true)
    (hr : root.length + 14 < 4096) :
    mount_at w root mnt_rec =
      ⟨[Event.mount "/sys" (root ++ "/" ++ "sys") "bind" (MS_BIND ||| MS_REC)], true⟩ := by
  have h3 : ("sys" : String).length = 3 := rfl
  rw [mount_at_eq (by show root.length + 1 + ("sys" : String).length < 4096
                      omega),
    hm]
  rfl

lemma mount_sys_ok {w : World} {root : String} (hm : ∀ s t, w.mountOk s t = true)
    (hu : w.access "/proc/1/uid_map" = true → 3 ≤ w.uidMap.length)
    (hr : root.length + 14 < 4096)
    (he : ∀ e ∈ w.cgroupEntries, root.length + 15 + e.d_name.length < 4096) :
    (mount_sys w root).ok = true := by
  have hrec : (mount_at w root mnt_rec).ok = true := by
    rw [mount_at_rec_ok hm hr]
  have hleg : (mount_sys_legacy w root).ok = true := by
    rw [mount_sys_legacy_eq hm hr he]
  unfold mount_sys
  by_cases hcgv : w.cgroupFsType = CGROUP2_SUPER_MAGIC
  · rw [if_pos hcgv]
    exact hrec
  · rw [if_neg hcgv]
    by_cases hac : w.access "/proc/1/uid_map" = true
    · rw [if_pos hac, seq_ok]
      have hlen3 : fscanf_count w.uidMap = 3 := by
        unfold fscanf_count
        have := hu hac
        omega
      have hne : ¬ (fscanf_count w.uidMap ≠ 3) := by simp [hlen3]
      rw [if_neg hne]
      by_cases hid : w.uidMap.getD 0 0 ≠ 0 ∨ w.uidMap.getD 1 0 ≠ 0 ∨ w.uidMap.getD 2 0 ≠ UNMAPPED
      · rw [if_pos hid]
        simp [hrec]
      · rw [if_neg hid]
        simp [hleg]
    · rw [if_neg hac]
      exact hleg

lemma all_dropWhile_of_all {p q : Event → Bool} {l : List Event}
    (h : ∀ e ∈ l, q e = false) : (l.dropWhile p).all (fun e => !(q e)) = true := by
  induction l with
  | nil => rfl
  | cons a l ih =>
    cases hpa : p a
    · simp only [List.dropWhile, hpa]
      rw [List.all_eq_true]
      intro e he
      simp [h e he]
    · simp only [List.dropWhile, hpa]
      exact ih (fun e he => h e (List.mem_cons_of_mem _ he))

lemma hostsBeforeDev_append {A B : List Event}
    (hA : ∀ e ∈ A, isDevFileEvent e = false) (hB : ∀ e ∈ B, isHostsWrite e = false) :
    hostsBeforeDev (A ++ B) = true := by
  induction A with
  | nil =>
    simp only [List.nil_append]
    exact all_dropWhile_of_all hB
  | cons a A ih =>
    have ha : isDevFileEvent a = false := hA a (by simp)
    have ih' := ih (fun e he => hA e (List.mem_cons_of_mem _ he))
    unfold hostsBeforeDev at ih' ⊢
    simp only [List.cons_append, List.dropWhile, ha, Bool.not_false]
    exact ih'

lemma seq_trace_cons {x : Event} {s : List Event} {a : Run} (b : Run)
    (h : a.trace = x :: s) : ∃ s2, (a.seq b).trace = x :: s2 := by
  unfold Run.seq
  split
  · exact ⟨s ++ b.trace, by simp [h]⟩
  · exact ⟨s, h⟩

lemma c1_targets_aux (root : String) (ns : List String) :
    (((ns.map (fun n => Event.mount ("sys/fs/cgroup/" ++ n)
          (root ++ "/" ++ ("sys/fs/cgroup/" ++ n)) "bind" MS_BIND)).filter isMount).map
        Event.target) =
      ns.map (fun n => root ++ "/" ++ ("sys/fs/cgroup/" ++ n)) := by
  induction ns with
  | nil => rfl
  | cons n ns ih => simp [List.filter_cons, isMount, Event.target, ih]

/-- C1: on a run where the host's `/sys/fs/cgroup` reports a legacy
(non-unified) filesystem type and the UID-map record read is the identity
record `0 0 <unmapped-sentinel>`, `mount_sys` succeeds and issues exactly
the two non-recursive bind mounts — host `/sys` onto container `sys`, then
host `/sys/fs/cgroup` onto container `sys/fs/cgroup` — followed by one
non-recursive bind mount per directory entry under the host's
`/sys/fs/cgroup` (skipping `.`, `..` and non-directory entries), and the
container-side controller mount targets correspond one-to-one, by name, to
the host-side controller directory names. -/
theorem claim_c1 (w : World) (root : String)
    (h1 : w.cgroupFsType ≠ CGROUP2_SUPER_MAGIC)
    (h2 : w.access "/proc/1/uid_map" = true)
    (h3 : ∃ rest, w.uidMap = 0 :: 0 :: UNMAPPED :: rest)
    (hm : ∀ s t, w.mountOk s t = true)
    (hr : root.length + 14 < 4096)
    (he : ∀ e ∈ w.cgroupEntries, root.length + 15 + e.d_name.length < 4096) :
    (mount_sys w root).ok = true ∧
    (mount_sys w root).trace =
      Event.openUidMap ::
        Event.mount "/sys" (root ++ "/" ++ "sys") "bind" MS_BIND ::
        Event.mount "/sys/fs/cgroup" (root ++ "/" ++ "sys/fs/cgroup") "bind" MS_BIND ::
        (controller_names w.cgroupEntries).map (fun n =>
          Event.mount ("sys/fs/cgroup/" ++ n) (root ++ "/" ++ ("sys/fs/cgroup/" ++ n))
            "bind" MS_BIND) ∧
    ((mountEvents (mount_sys w root).trace).drop 2).map Event.target =
      (controller_names w.cgroupEntries).map (fun n => root ++ "/" ++ ("sys/fs/cgroup/" ++ n)) := by
  obtain ⟨rest, hmap⟩ := h3
  have hmeq : mount_sys w root = Run.seq ⟨[Event.openUidMap], true⟩ (mount_sys_legacy w root) := by
    unfold mount_sys
    rw [if_neg h1, if_pos h2]
    congr 1
    have hlen3 : fscanf_count w.uidMap = 3 := by
      rw [hmap]
      unfold fscanf_count
      simp
    have hne : ¬ (fscanf_count w.uidMap ≠ 3) := by simp [hlen3]
    rw [if_neg hne]
    have hid : ¬ (w.uidMap.getD 0 0 ≠ 0 ∨ w.uidMap.getD 1 0 ≠ 0 ∨
        w.uidMap.getD 2 0 ≠ UNMAPPED) := by
      rw [hmap]
      simp
    rw [if_neg hid]
  have hfull : mount_sys w root =
      ⟨Event.openUidMap ::
         Event.mount "/sys" (root ++ "/" ++ "sys") "bind" MS_BIND ::
         Event.mount "/sys/fs/cgroup" (root ++ "/" ++ "sys/fs/cgroup") "bind" MS_BIND ::
         (controller_names w.cgroupEntries).map (fun n =>
           Event.mount ("sys/fs/cgroup/" ++ n) (root ++ "/" ++ ("sys/fs/cgroup/" ++ n))
             "bind" MS_BIND),
       true⟩ := by
    rw [hmeq, mount_sys_legacy_eq hm hr he]
    rfl
  refine ⟨by rw [hfull], by rw [hfull], ?_⟩
  rw [hfull]
  exact c1_targets_aux root (controller_names w.cgroupEntries)

/-- C2: on a run where the host's `/sys/fs/cgroup` reports the unified
(cgroup v2) filesystem type, `mount_sys` issues exactly one recursive bind
mount of host `/sys` onto the container's `sys` — its whole trace is that
single mount, so it performs no per-controller cgroup mounts and never
opens the UID map. -/
theorem claim_c2 (w : World) (root : String)
    (h1 : w.cgroupFsType = CGROUP2_SUPER_MAGIC)
    (hm : ∀ s t, w.mountOk s t = true)
    (hr : root.length + 14 < 4096) :
    mount_sys w root =
      ⟨[Event.mount "/sys" (root ++ "/" ++ "sys") "bind" (MS_BIND ||| MS_REC)], true⟩ := by
  unfold mount_sys
  rw [if_pos h1]
  exact mount_at_rec_ok hm hr

/-- C3: on a run where the host's `/sys/fs/cgroup` reports a legacy cgroup
filesystem type and the UID-map record has a non-zero base, a non-zero
shift, or a range different from the unmapped sentinel, `mount_sys`
succeeds and its mount events are exactly one recursive bind mount of host
`/sys` onto the container's `sys` — no per-controller mounts. -/
theorem claim_c3 (w : World) (root : String)
    (h1 : w.cgroupFsType ≠ CGROUP2_SUPER_MAGIC)
    (h2 : w.access "/proc/1/uid_map" = true)
    (h3 : ∃ a b c rest, w.uidMap = a :: b :: c :: rest ∧ (a ≠ 0 ∨ b ≠ 0 ∨ c ≠ UNMAPPED))
    (hm : ∀ s t, w.mountOk s t = true)
    (hr : root.length + 14 < 4096) :
    (mount_sys w root).ok = true ∧
    mountEvents (mount_sys w root).trace =
      [Event.mount "/sys" (root ++ "/" ++ "sys") "bind" (MS_BIND ||| MS_REC)] := by
  obtain ⟨a, b, c, rest, hmap, hnid⟩ := h3
  have hmeq : mount_sys w root = Run.seq ⟨[Event.openUidMap], true⟩ (mount_at w root mnt_rec) := by
    unfold mount_sys
    rw [if_neg h1, if_pos h2]
    congr 1
    have hlen3 : fscanf_count w.uidMap = 3 := by
      rw [hmap]
      unfold fscanf_count
      simp
    have hne : ¬ (fscanf_count w.uidMap ≠ 3) := by simp [hlen3]
    rw [if_neg hne]
    have hid : w.uidMap.getD 0 0 ≠ 0 ∨ w.uidMap.getD 1 0 ≠ 0 ∨
        w.uidMap.getD 2 0 ≠ UNMAPPED := by
      rw [hmap]
      simpa using hnid
    rw [if_pos hid]
  have hfull : mount_sys w root =
      ⟨[Event.openUidMap, Event.mount "/sys" (root ++ "/" ++ "sys") "bind" (MS_BIND ||| MS_REC)],
       true⟩ := by
    rw [hmeq, mount_at_rec_ok hm hr]
    rfl
  exact ⟨by rw [hfull], by rw [hfull]; rfl⟩

/-- C7: in the legacy-cgroup branch, a UID-map record holding fewer than
three parseable integer fields aborts `mount_sys` fatally, with no mount
event issued — a malformed record is never treated as "not nested". -/
theorem claim_c7 (w : World) (root : String)
    (h1 : w.cgroupFsType ≠ CGROUP2_SUPER_MAGIC)
    (h2 : w.access "/proc/1/uid_map" = true)
    (h3 : w.uidMap.length < 3) :
    (mount_sys w root).ok = false ∧ mountEvents (mount_sys w root).trace = [] := by
  have hne : fscanf_count w.uidMap ≠ 3 := by
    unfold fscanf_count
    omega
  unfold mount_sys
  rw [if_neg h1, if_pos h2, if_pos hne]
  exact ⟨rfl, rfl⟩

/-- C6: for every device node path in the fixed list, the device-node step
skips the node (no placeholder, no mount, success) when the host path is
absent; when the host path is present and the composed path fits, it first
ensures the placeholder via an `O_CREAT` open and then bind-mounts the
host node onto it, succeeding exactly when the mount syscall succeeds (any
non-tolerated failure is fatal); an oversized composed path aborts before
any syscall. -/
theorem claim_c6 (w : World) (root src : String) (_hs : src ∈ devnodes) :
    (w.access src = false → devnode_step w root src = Run.pure) ∧
    (w.access src = true → 4096 ≤ (root ++ src).length →
      devnode_step w root src = Run.fail) ∧
    (w.access src = true → (root ++ src).length < 4096 →
      devnode_step w root src =
        ⟨[Event.openCreate (root ++ src), Event.mount src (root ++ src) "bind" MS_BIND],
         w.mountOk src (root ++ src)⟩) := by
  refine ⟨?_, ?_, ?_⟩
  · intro h
    unfold devnode_step
    rw [if_pos h]
  · intro h hl
    have hna : ¬ (w.access src = false) := by simp [h]
    unfold devnode_step
    rw [if_neg hna, if_pos hl]
  · intro h hl
    have hna : ¬ (w.access src = false) := by simp [h]
    have hnl : ¬ (4096 ≤ (root ++ src).length) := by omega
    unfold devnode_step
    rw [if_neg hna, if_neg hnl]

/-- C8: the mount executor `mount_at` always resolves the target relative
to the container root (the issued mount's target is `root ++ "/" ++
target`); when the resolved path would reach the fixed 4096-byte buffer
bound it aborts fatally with no mount event issued, and when it fits the
single issued mount's target is the resolved path, of length below 4096 —
never a silently truncated path. -/
theorem claim_c8 (w : World) (root : String) (mnt : mount_point) :
    (4096 ≤ root.length + 1 + mnt.target.length → mount_at w root mnt = Run.fail) ∧
    (root.length + 1 + mnt.target.length < 4096 →
      mount_at w root mnt =
        ⟨[Event.mount mnt.source (root ++ "/" ++ mnt.target) mnt.type mnt.flags],
         w.mountOk mnt.source (root ++ "/" ++ mnt.target)⟩ ∧
      (root ++ "/" ++ mnt.target).length < 4096) := by
  have hlen : (root ++ "/" ++ mnt.target).length = root.length + 1 + mnt.target.length := by
    rw [len_app, len_app]
    rfl
  constructor
  · intro h
    have hc : 4096 ≤ (root ++ "/" ++ mnt.target).length := by omega
    unfold mount_at
    rw [if_pos hc]
  · intro h
    have hc : ¬ (4096 ≤ (root ++ "/" ++ mnt.target).length) := by omega
    exact ⟨by unfold mount_at; rw [if_neg hc], by omega⟩

/-- C10: the first mutating operation of every run — before any unlink,
directory creation or other mount — is the recursive self bind mount of
the root path (`MS_BIND ||| MS_REC`), and when that mount fails the run
aborts with it as its only event. -/
theorem claim_c10 (w : World) (root : String) :
    (main w root).trace.head? = some (Event.mount root root "bind" (MS_BIND ||| MS_REC)) ∧
    (w.mountOk root root = false →
      (main w root).ok = false ∧
      (main w root).trace = [Event.mount root root "bind" (MS_BIND ||| MS_REC)]) := by
  constructor
  · have h1 : (root_mount_step w root).trace =
        Event.mount root root "bind" (MS_BIND ||| MS_REC) :: [] := rfl
    obtain ⟨s2, h2⟩ := seq_trace_cons
      ((runList (unlink_step w) unlink_paths).seq
        ((runList (mkdir_step w) dirs).seq (ensure_etc_hosts_exists w))) h1
    have h2' : (main_pre w root).trace =
        Event.mount root root "bind" (MS_BIND ||| MS_REC) :: s2 := h2
    obtain ⟨s3, h3⟩ := seq_trace_cons (main_post w root) h2'
    have h3' : (main w root).trace =
        Event.mount root root "bind" (MS_BIND ||| MS_REC) :: s3 := h3
    rw [h3']
    rfl
  · intro hf
    have hrm : root_mount_step w root =
        ⟨[Event.mount root root "bind" (MS_BIND ||| MS_REC)], false⟩ := by
      unfold root_mount_step
      rw [hf]
    have hpre : main_pre w root =
        ⟨[Event.mount root root "bind" (MS_BIND ||| MS_REC)], false⟩ := by
      unfold main_pre
      rw [hrm, seq_of_not_ok _ rfl]
    have hmain : main w root =
        ⟨[Event.mount root root "bind" (MS_BIND ||| MS_REC)], false⟩ := by
      unfold main
      rw [hpre, seq_of_not_ok _ rfl]
    rw [hmain]
    exact ⟨rfl, rfl⟩

/-- A concrete world: unified cgroup hierarchy, no pre-existing hosts
file, a 32-character machine id, `/dev/null` the only probed path that
exists, every mount succeeding. -/
def w_run : World where
  mountOk := fun _ _ => true
  unlinkResult := fun _ => UnlinkRes.enoent
  mkdirResult := fun _ => MkdirRes.ok
  symlinkResult := fun _ => SymlinkRes.ok
  etcHostsExists := false
  machineIdFile := some "0123456789abcdef0123456789abcdef"
  access := fun p => p == "/dev/null"
  cgroupFsType := CGROUP2_SUPER_MAGIC
  uidMap := []
  cgroupEntries := []

/-- C5, counterexample: in the concrete run `main w_run "/r"` it is not
the case that every mutating operation of the Device & File Bind-Mounter
precedes every mutating operation of the Hosts Synthesizer — the hosts
file is written before the `/dev/null` placeholder and bind mount. -/
theorem claim_c5_counterexample : devBeforeHosts (main w_run "/r").trace = false := by
  decide

/-- C5, amended: the components do run in one fixed sequence, but the
Hosts Synthesizer runs immediately after the Skeleton Builder and before
the Device & File Bind-Mounter: every mutating operation of the Hosts
Synthesizer precedes every mutating operation of the Device & File
Bind-Mounter (for any root path that is not itself one of the bind-mount
source paths). -/
theorem claim_c5 (w : World) (root : String)
    (hroot : dev_sources.contains root = false) :
    hostsBeforeDev (main w root).trace = true := by
  have hA := @main_pre_no_dev w root hroot
  have hB := @main_post_no_write w root
  unfold main Run.seq
  split
  · exact hostsBeforeDev_append hA hB
  · have h := @hostsBeforeDev_append (main_pre w root).trace [] hA (by simp)
    simpa using h

/-- C9: re-running the preparation against a root that already contains
the skeleton succeeds — "already exists" on directory and symlink
creation, "does not exist"/"is a directory" on the unlink probes, and a
pre-existing hosts file are all treated as success — and the pre-existing
hosts file is never written. -/
theorem claim_c9 (w : World) (root : String)
    (hhosts : w.etcHostsExists = true)
    (hunlink : ∀ p, w.unlinkResult p ≠ UnlinkRes.other)
    (hmkdir : ∀ p, w.mkdirResult p ≠ MkdirRes.other)
    (hsym : ∀ p, w.symlinkResult p ≠ SymlinkRes.other)
    (hm : ∀ s t, w.mountOk s t = true)
    (hu : w.access "/proc/1/uid_map" = true → 3 ≤ w.uidMap.length)
    (hr : root.length + 21 < 4096)
    (he : ∀ e ∈ w.cgroupEntries, root.length + 15 + e.d_name.length < 4096) :
    (main w root).ok = true ∧ ∀ e ∈ (main w root).trace, isHostsWrite e = false := by
  have h1s : ("/" : String).length = 1 := rfl
  constructor
  · have hpre : (main_pre w root).ok = true := by
      have g1 : (root_mount_step w root).ok = true := by
        unfold root_mount_step
        exact hm root root
      have g2 : (runList (unlink_step w) unlink_paths).ok = true :=
        runList_ok (fun p _ => unlink_step_ok (hunlink p))
      have g3 : (runList (mkdir_step w) dirs).ok = true :=
        runList_ok (fun d _ => mkdir_step_ok (hmkdir d.name))
      have g4 : (ensure_etc_hosts_exists w).ok = true := by
        rw [ensure_of_exists hhosts]
        rfl
      unfold main_pre
      simp [seq_ok, g1, g2, g3, g4]
    have hpost : (main_post w root).ok = true := by
      have g1 : (runList (devnode_step w root) devnodes).ok = true := by
        refine runList_ok (fun s hs => ?_)
        have hlen : ∀ x ∈ devnodes, x.length ≤ 12 := by decide
        refine devnode_step_ok hm ?_
        rw [len_app]
        have := hlen s hs
        omega
      have g2 : (runList (mount_at w root) dirs_mount_table).ok = true := by
        refine runList_ok (fun m hmem => ?_)
        have hlen : ∀ x ∈ dirs_mount_table, x.target.length ≤ 20 := by decide
        rw [mount_at_eq (by have := hlen m hmem; omega)]
        exact hm _ _
      have g3 : (mount_sys w root).ok = true := mount_sys_ok hm hu (by omega) he
      have g4 : (runList (file_mount_step w root) files_mount_table).ok = true := by
        refine runList_ok (fun m hmem => ?_)
        have hlen : ∀ x ∈ files_mount_table, x.target.length ≤ 16 := by decide
        refine file_mount_step_ok hm ?_
        rw [len_app, len_app]
        have := hlen m hmem
        omega
      have g5 : (symlink_step w root "/dev/pts/ptmx" "/dev/ptmx").ok = true := by
        refine symlink_step_ok (hsym _) ?_
        rw [len_app]
        have h9 : ("/dev/ptmx" : String).length = 9 := rfl
        omega
      have g6 : (symlink_step w root "/run/systemd/journal/dev-log" "/dev/log").ok = true := by
        refine symlink_step_ok (hsym _) ?_
        rw [len_app]
        have h8 : ("/dev/log" : String).length = 8 := rfl
        omega
      unfold main_post
      simp [seq_ok, g1, g2, g3, g4, g5, g6]
    unfold main
    simp [seq_ok, hpre, hpost]
  · intro e he
    rcases @mem_seq_trace e (main_pre w root) (main_post w root) he with h | h
    · exact main_pre_no_write hhosts e h
    · exact main_post_no_write e h

/-- C4, counterexample: for the 32-character machine identity
`0123456789abcdef0123456789abcdef` the synthesized hostname is not
`rkt-01234567-89ab-cdef-0123-456789abcdef` — the program reads only the
first 28 characters of the identity, so the final four hex digits never
reach the hostname. -/
theorem claim_c4_counterexample :
    ¬ (get_machine_name "0123456789abcdef0123456789abcdef" =
        some "rkt-01234567-89ab-cdef-0123-456789abcdef") := by
  decide

/-- C4, amended: for any identity file whose first 28 characters are
`0123456789abcdef0123456789ab` (in particular any 32-character identity
`0123456789abcdef0123456789abXXXX` — the last four characters are ignored),
the synthesized hostname is `rkt-01234567-89ab-cdef-0123-456789ab` and,
when no hosts file exists, the entire written hosts-file contents are
exactly `127.0.0.1\t<hostname>\tlocalhost\tlocalhost.localdomain\n`. -/
theorem claim_c4 (contents : String)
    (h : contents.take MACHINE_ID_LEN = "0123456789abcdef0123456789ab") :
    get_machine_name contents = some "rkt-01234567-89ab-cdef-0123-456789ab" ∧
    ∀ w : World, w.etcHostsExists = false → w.machineIdFile = some contents →
      ensure_etc_hosts_exists w =
        ⟨[Event.writeFile "etc/hosts"
            "127.0.0.1\trkt-01234567-89ab-cdef-0123-456789ab\tlocalhost\tlocalhost.localdomain\n"],
         true⟩ := by
  have hg : get_machine_name contents = some "rkt-01234567-89ab-cdef-0123-456789ab" := by
    unfold get_machine_name
    simp only [h]
    decide
  refine ⟨hg, ?_⟩
  intro w h1 h2
  have hne : ¬ (w.etcHostsExists = true) := by simp [h1]
  unfold ensure_etc_hosts_exists
  rw [if_neg hne]
  simp only [h2, hg]
  decide

/-- A concrete world: legacy (v1) cgroup hierarchy with the identity
UID map, a pre-existing skeleton (everything already exists), and a mix of
controller directory entries. -/
def w_legacy : World where
  mountOk := fun _ _ => true
  unlinkResult := fun _ => UnlinkRes.eisdir
  mkdirResult := fun _ => MkdirRes.eexist
  symlinkResult := fun _ => SymlinkRes.eexist
  etcHostsExists := true
  machineIdFile := none
  access := fun p => p == "/proc/1/uid_map"
  cgroupFsType := 0x27e0eb
  uidMap := [0, 0, 4294967295]
  cgroupEntries := [⟨"cpu", true⟩, ⟨".", true⟩, ⟨"..", true⟩, ⟨"memory", true⟩,
    ⟨"cgroup.procs", false⟩]

/-- The same legacy host nested in a parent user namespace. -/
def w_nested : World := { w_legacy with uidMap := [100000, 0, 65536] }

/-- The same legacy host with a malformed (two-field) UID-map record. -/
def w_badmap : World := { w_legacy with uidMap := [0, 0] }

/-- A world in which every mount syscall fails. -/
def w_fail : World := { w_run with mountOk := fun _ _ => false }

theorem claim_c1_witness :
    (mount_sys w_legacy "/r").ok = true ∧
    (mount_sys w_legacy "/r").trace =
      Event.openUidMap ::
        Event.mount "/sys" ("/r" ++ "/" ++ "sys") "bind" MS_BIND ::
        Event.mount "/sys/fs/cgroup" ("/r" ++ "/" ++ "sys/fs/cgroup") "bind" MS_BIND ::
        (controller_names w_legacy.cgroupEntries).map (fun n =>
          Event.mount ("sys/fs/cgroup/" ++ n) ("/r" ++ "/" ++ ("sys/fs/cgroup/" ++ n))
            "bind" MS_BIND) ∧
    ((mountEvents (mount_sys w_legacy "/r").trace).drop 2).map Event.target =
      (controller_names w_legacy.cgroupEntries).map
        (fun n => "/r" ++ "/" ++ ("sys/fs/cgroup/" ++ n)) :=
  claim_c1 w_legacy "/r" (by decide) (by decide) ⟨[], rfl⟩ (fun _ _ => rfl)
    (by decide) (by decide)

theorem claim_c2_witness :
    mount_sys w_run "/r" =
      ⟨[Event.mount "/sys" ("/r" ++ "/" ++ "sys") "bind" (MS_BIND ||| MS_REC)], true⟩ :=
  claim_c2 w_run "/r" rfl (fun _ _ => rfl) (by decide)

theorem claim_c3_witness :
    (mount_sys w_nested "/r").ok = true ∧
    mountEvents (mount_sys w_nested "/r").trace =
      [Event.mount "/sys" ("/r" ++ "/" ++ "sys") "bind" (MS_BIND ||| MS_REC)] :=
  claim_c3 w_nested "/r" (by decide) (by decide)
    ⟨100000, 0, 65536, [], rfl, Or.inl (by decide)⟩ (fun _ _ => rfl) (by decide)

theorem claim_c4_witness :
    ("0123456789abcdef0123456789abcdef".take MACHINE_ID_LEN =
        "0123456789abcdef0123456789ab") ∧
    (get_machine_name "0123456789abcdef0123456789abcdef" =
        some "rkt-01234567-89ab-cdef-0123-456789ab" ∧
      ∀ w : World, w.etcHostsExists = false →
        w.machineIdFile = some "0123456789abcdef0123456789abcdef" →
        ensure_etc_hosts_exists w =
          ⟨[Event.writeFile "etc/hosts"
              "127.0.0.1\trkt-01234567-89ab-cdef-0123-456789ab\tlocalhost\tlocalhost.localdomain\n"],
           true⟩) :=
  ⟨by decide, claim_c4 "0123456789abcdef0123456789abcdef" (by decide)⟩

theorem claim_c5_witness :
    dev_sources.contains "/r" = false ∧ hostsBeforeDev (main w_run "/r").trace = true :=
  ⟨by decide, claim_c5 w_run "/r" (by decide)⟩

theorem claim_c6_witness :
    "/dev/null" ∈ devnodes ∧
    ((w_run.access "/dev/null" = false → devnode_step w_run "/r" "/dev/null" = Run.pure) ∧
      (w_run.access "/dev/null" = true → 4096 ≤ ("/r" ++ "/dev/null").length →
        devnode_step w_run "/r" "/dev/null" = Run.fail) ∧
      (w_run.access "/dev/null" = true → ("/r" ++ "/dev/null").length < 4096 →
        devnode_step w_run "/r" "/dev/null" =
          ⟨[Event.openCreate ("/r" ++ "/dev/null"),
             Event.mount "/dev/null" ("/r" ++ "/dev/null") "bind" MS_BIND],
           w_run.mountOk "/dev/null" ("/r" ++ "/dev/null")⟩)) :=
  ⟨by decide, claim_c6 w_run "/r" "/dev/null" (by decide)⟩

theorem claim_c7_witness :
    (mount_sys w_badmap "/r").ok = false ∧ mountEvents (mount_sys w_badmap "/r").trace = [] :=
  claim_c7 w_badmap "/r" (by decide) (by decide) (by decide)

theorem claim_c8_witness :
    mount_at w_run "/r" ⟨"/etc/rkt-resolv.conf", "/etc/resolv.conf", "bind", none, MS_BIND⟩ =
      ⟨[Event.mount "/etc/rkt-resolv.conf" ("/r" ++ "/" ++ "/etc/resolv.conf") "bind" MS_BIND],
       w_run.mountOk "/etc/rkt-resolv.conf" ("/r" ++ "/" ++ "/etc/resolv.conf")⟩ ∧
    ("/r" ++ "/" ++ "/etc/resolv.conf").length < 4096 :=
  (claim_c8 w_run "/r" ⟨"/etc/rkt-resolv.conf", "/etc/resolv.conf", "bind", none, MS_BIND⟩).2
    (by decide)

theorem claim_c9_witness :
    w_legacy.etcHostsExists = true ∧
    ((main w_legacy "/r").ok = true ∧
      ∀ e ∈ (main w_legacy "/r").trace, isHostsWrite e = false) :=
  ⟨rfl, claim_c9 w_legacy "/r" rfl
    (fun _ => (by decide : UnlinkRes.eisdir ≠ UnlinkRes.other))
    (fun _ => (by decide : MkdirRes.eexist ≠ MkdirRes.other))
    (fun _ => (by decide : SymlinkRes.eexist ≠ SymlinkRes.other))
    (fun _ _ => rfl) (fun _ => (by decide : (3 : Nat) ≤ 3)) (by decide) (by decide)⟩

theorem claim_c10_witness :
    (main w_fail "/r").ok = false ∧
    (main w_fail "/r").trace = [Event.mount "/r" "/r" "bind" (MS_BIND ||| MS_REC)] :=
  (claim_c10 w_fail "/r").2 rfl

end PrepareApp
